import Mathlib

/-!
Shallow embedding of `src/build/webpack.js` (build-configuration assembly):
the entry-map construction and backwards-compatibility rewrite, the
optimization (chunk-splitting) policy, the output-naming policy, the
server externals classification, and the assembler with its optional
user override hook.

JavaScript objects with string keys are modelled as association lists
with unique keys (`EntryMap`); JS numbers appearing in the optimization
policy are modelled as rationals (`totalPages * 0.5` is exact, the source
applies no rounding); exceptions are modelled with `Except String`.
-/

set_option autoImplicit false

namespace NextBuild

/-- An entry mapping: JS object from entry-chunk name to ordered module list.
Keys are unique (JS object semantics). -/
abbrev EntryMap := List (String × List String)

/-- Lookup of a key in an entry mapping (`entry[k]`, `undefined` ↦ `none`). -/
def lookupEntry : EntryMap → String → Option (List String)
  | [], _ => none
  | (k', v') :: rest, k => if k' = k then some v' else lookupEntry rest k

/-- Assignment `entry[k] = v`: update in place if the key exists (JS keeps the
original key position), otherwise append the new key at the end. -/
def setEntry : EntryMap → String → List String → EntryMap
  | [], k, v => [(k, v)]
  | (k', v') :: rest, k, v =>
    if k' = k then (k, v) :: rest else (k', v') :: setEntry rest k v

/-- Deletion `delete entry[k]`. On the unique-key maps produced by JS objects
this removes the single binding of `k`. -/
def eraseEntry : EntryMap → String → EntryMap
  | [], _ => []
  | (k', v') :: rest, k =>
    if k' = k then eraseEntry rest k else (k', v') :: eraseEntry rest k

/-- Object spread `{...a, ...b}`: keys of `a` in order, then keys of `b`
not in `a` appended in order; on a collision the value from `b` wins. -/
def mergeEntries (a : EntryMap) : EntryMap → EntryMap
  | [] => a
  | (k, v) :: rest => mergeEntries (setEntry a k v) rest

/-- The closing backwards-compat rewrite installed on the entry thunk
(`webpackConfig.entry` at the end of `getBaseWebpackConfig`):

if `entry[main.js]` is defined, set `entry[static/commons/main.js]` to the
spread `[...entry[main.js], ...entry[static/commons/main.js]]` and delete
`main.js`; otherwise return the mapping unchanged.  When `main.js` is
present but `static/commons/main.js` is absent, the JS spread of
`undefined` raises a `TypeError`, modelled as `Except.error`. -/
def entryRewrite (m : EntryMap) : Except String EntryMap :=
  match lookupEntry m "main.js" with
  | none => .ok m
  | some mainMods =>
    match lookupEntry m "static/commons/main.js" with
    | none => .error "TypeError: undefined is not iterable"
    | some commonsMods =>
      .ok (eraseEntry
            (setEntry m "static/commons/main.js" (mainMods ++ commonsMods))
            "main.js")

/-- The `commons` cache group of the production client `splitChunks` config
(`name`, `chunks`, `minChunks`). The sibling `default: false` and
`vendors: false` entries disable the built-in groups and carry no data. -/
structure CommonsCacheGroup where
  name : String
  chunks : String
  minChunks : ℚ
  deriving DecidableEq, Repr

/-- The `splitChunks` field: either the literal `false` or a config object
with `chunks: 'all'` and the single `commons` cache group. -/
inductive SplitChunksSetting where
  | disabled
  | enabled (chunks : String) (commons : CommonsCacheGroup)
  deriving DecidableEq, Repr

/-- The result of `optimizationConfig`: `runtimeChunk.name` when set,
the `splitChunks` setting, and `minimize` when the source sets it
(the client configs leave `minimize` to the bundler default, `none`). -/
structure Optimization where
  runtimeChunk : Option String
  splitChunks : SplitChunksSetting
  minimize : Option Bool
  deriving DecidableEq, Repr

/-- Source function `optimizationConfig ({dir, dev, isServer, totalPages})`
from the source (`dir` is destructured but unused). Server: splitting and minification
disabled.  Client: a named runtime chunk always; in production additionally
the `commons` cache group with
`minChunks: totalPages > 2 ? totalPages * 0.5 : 2` (exact, no rounding). -/
def optimizationConfig (dev isServer : Bool) (totalPages : ℕ) : Optimization :=
  if isServer then
    { runtimeChunk := none, splitChunks := .disabled, minimize := some false }
  else
    let config : Optimization :=
      { runtimeChunk := some "static/commons/runtime.js"
        splitChunks := .disabled
        minimize := none }
    if dev then config
    else
      { config with
          splitChunks := .enabled "all"
            { name := "commons"
              chunks := "all"
              minChunks := if totalPages > 2 then (totalPages : ℚ) * 0.5 else 2 } }

/-- The `minChunks` threshold of the commons cache group in the client
production optimization result, when splitting is enabled. -/
def clientProdCommonsMinChunks (totalPages : ℕ) : Option ℚ :=
  match (optimizationConfig false false totalPages).splitChunks with
  | .disabled => none
  | .enabled _ commons => some commons.minChunks

/-- What the externals callback passes to `callback`: `callback()` continues
normal bundling; `callback(null, expr)` externalizes the request as `expr`. -/
inductive ExternalsResult where
  | bundle
  | external (expr : String)
  deriving DecidableEq, Repr

/-- Scan `l` for an occurrence of `pat` as a contiguous sublist. -/
def containsSubAux (pat : List Char) : List Char → Bool
  | [] => pat.isEmpty
  | c :: cs => pat.isPrefixOf (c :: cs) || containsSubAux pat cs

/-- Substring test on strings, used to model a JS `String.match` against a
regex with no anchors. -/
def containsSub (res pat : String) : Bool :=
  containsSubAux pat.data res.data

/-- The eight literal expansions of `node_modules[/\\]next[/\\]dist[/\\]pages`. -/
def defaultPagesPats : List String :=
  [ "node_modules/next/dist/pages"
  , "node_modules/next/dist\\pages"
  , "node_modules/next\\dist/pages"
  , "node_modules/next\\dist\\pages"
  , "node_modules\\next/dist/pages"
  , "node_modules\\next/dist\\pages"
  , "node_modules\\next\\dist/pages"
  , "node_modules\\next\\dist\\pages" ]

/-- Model of `res.match(/node_modules[/\\]next[/\\]dist[/\\]pages/)` as a Bool. -/
def matchesDefaultPages (res : String) : Bool :=
  defaultPagesPats.any fun p => containsSub res p

/-- The two literal expansions of `node_modules[/\\]webpack`. -/
def webpackPats : List String :=
  ["node_modules/webpack", "node_modules\\webpack"]

/-- Model of `res.match(/node_modules[/\\]webpack/)` as a Bool. -/
def matchesWebpackPath (res : String) : Bool :=
  webpackPats.any fun p => containsSub res p

/-- The two expansions of `node_modules[/\\]` as character lists. -/
def nmSepPats : List (List Char) :=
  ["node_modules/".data, "node_modules\\".data]

/-- Scan for a match of `node_modules[/\\].*\.js$`: at some position the
13-character `node_modules` + separator occurs, and the rest of the string
(at least 3 characters after it) ends in `.js`.  Paths contain no newline,
so `.` matching any character is faithful. -/
def nmJsScan : List Char → Bool
  | [] => false
  | c :: cs =>
    ((nmSepPats.any fun p => p.isPrefixOf (c :: cs)) &&
      ".js".data.isSuffixOf ((c :: cs).drop 13)) ||
    nmJsScan cs

/-- Model of `res.match(/node_modules[/\\].*\.js$/)` as a Bool. -/
def matchesNodeModulesJs (res : String) : Bool :=
  nmJsScan res.data

/-- The decision body of the externals function pushed in `externalsConfig`,
given the request and the outcome of `resolve(request, {basedir: dir,
preserveSymlinks: true})`.  A resolution error calls the bare `callback()`
(bundle; the error is dropped).  Otherwise, first match wins: default pages
→ bundle; webpack itself → bundle; a `.js` file under `node_modules` →
externalize as `commonjs <request>`; anything else → bundle. -/
def externalsCallback (request : String) (resolution : Except String String) :
    Except String ExternalsResult :=
  match resolution with
  | .error _ => .ok .bundle
  | .ok res =>
    if matchesDefaultPages res then .ok .bundle
    else if matchesWebpackPath res then .ok .bundle
    else if matchesNodeModulesJs res then .ok (.external ("commonjs " ++ request))
    else .ok .bundle

/-- Source function `externalsConfig (dir, isServer)`: the empty externals list for client
builds, the single resolving callback for server builds (`dir` only feeds
the resolver, which is a parameter of `externalsCallback` here). -/
def externalsConfig (isServer : Bool) :
    List (String → Except String String → Except String ExternalsResult) :=
  if isServer then [externalsCallback] else []

/-- A chunk as seen by `output.filename`: its `name` and `renderedHash`. -/
structure ChunkDescriptor where
  name : String
  renderedHash : String
  deriving DecidableEq, Repr

/-- JS `name.replace(/\.js$/, repl)`: replace a trailing `.js` by `repl`,
leave other strings unchanged. -/
def replaceJsSuffix (s repl : String) : String :=
  if ".js".data.isSuffixOf s.data then
    String.mk (s.data.take (s.data.length - 3)) ++ repl
  else s

/-- Function `output.filename` from the source: in production the two infrastructure
chunks get `name-hash.js`; every other chunk (and everything in dev) gets
the bundler template `[name]`. -/
def outputFilename (dev : Bool) (chunk : ChunkDescriptor) : String :=
  if dev = false ∧ (chunk.name = "static/commons/main.js"
      ∨ chunk.name = "static/commons/runtime.js") then
    replaceJsSuffix chunk.name ("-" ++ chunk.renderedHash ++ ".js")
  else
    "[name]"

/-- The external bundler expands the literal filename template `[name]` to
the chunk's name; any other string produced by `outputFilename` contains no
template and is emitted as-is. -/
def resolveFilenameTemplate (chunk : ChunkDescriptor) (s : String) : String :=
  if s = "[name]" then chunk.name else s

/-- The assembled configuration, restricted to the fields the policies
under verification inhabit.  The entry thunk is pure, so it is represented
by the mapping it returns; the closing rewrite (`entryRewrite`) is applied
when the final thunk is evaluated, see `finalEntry`. -/
structure Config where
  mode : String
  name : String
  target : String
  optimization : Optimization
  entry : EntryMap
  deriving DecidableEq, Repr

/-- The fixed client base entries (`clientEntries` in the source): the
backwards-compatibility `main.js` key with an empty list, and the commons
bootstrap pointing at the client runtime module. Empty for server builds. -/
def clientEntries (dev isServer : Bool) : EntryMap :=
  if !isServer then
    [ ("main.js", [])
    , ("static/commons/main.js",
        ["next/dist/client/" ++ if dev then "next-dev" else "next"]) ]
  else []

/-- Number of discovered pages: `Object.keys(pagesEntries).length`
(keys are unique, so this is the list length). -/
def totalPagesOf (pagesEntries : EntryMap) : ℕ :=
  pagesEntries.length

/-- The configuration assembled before the user override hook runs:
`mode`, `name`, `target`, the optimization policy, and the entry thunk
`{...clientEntries, ...pagesEntries}`. -/
def baseWebpackConfig (dev isServer : Bool) (pagesEntries : EntryMap) : Config :=
  { mode := if dev then "development" else "production"
    name := if isServer then "server" else "client"
    target := if isServer then "node" else "web"
    optimization := optimizationConfig dev isServer (totalPagesOf pagesEntries)
    entry := mergeEntries (clientEntries dev isServer) pagesEntries }

/-- Source function `getBaseWebpackConfig`: assemble the base configuration, then, when
`config.webpack` is a function, let it replace the configuration wholesale.
The hook is not wrapped in any handler: a failure it raises propagates to
the caller unchanged.  The closing entry rewrite is installed on the thunk
and therefore runs at `finalEntry` time, not during assembly. -/
def getBaseWebpackConfig (dev isServer : Bool) (pagesEntries : EntryMap)
    (hook : Option (Config → Except String Config)) : Except String Config :=
  let webpackConfig := baseWebpackConfig dev isServer pagesEntries
  match hook with
  | some f => f webpackConfig
  | none => .ok webpackConfig

/-- Evaluating the final configuration's entry thunk: invoke the (possibly
user-replaced) underlying thunk, then apply the closing backwards-compat
rewrite. -/
def finalEntry (c : Config) : Except String EntryMap :=
  entryRewrite c.entry

/-- Boolean success test on the exception monad used by the embedding. -/
def exceptOk {α : Type} : Except String α → Bool
  | .ok _ => true
  | .error _ => false

theorem lookupEntry_setEntry_self (m : EntryMap) (k : String) (v : List String) :
    lookupEntry (setEntry m k v) k = some v := by
  induction m with
  | nil => simp [setEntry, lookupEntry]
  | cons hd tl ih =>
    obtain ⟨k', v'⟩ := hd
    by_cases h : k' = k <;> simp [setEntry, lookupEntry, h, ih]

theorem lookupEntry_setEntry_ne (m : EntryMap) (k : String) (v : List String)
    (k' : String) (h : k ≠ k') :
    lookupEntry (setEntry m k v) k' = lookupEntry m k' := by
  induction m with
  | nil => simp [setEntry, lookupEntry, h]
  | cons hd tl ih =>
    obtain ⟨k0, v0⟩ := hd
    by_cases h0 : k0 = k
    · subst h0
      simp [setEntry, lookupEntry, h]
    · simp [setEntry, lookupEntry, h0, ih]

theorem lookupEntry_eraseEntry_self (m : EntryMap) (k : String) :
    lookupEntry (eraseEntry m k) k = none := by
  induction m with
  | nil => simp [eraseEntry, lookupEntry]
  | cons hd tl ih =>
    obtain ⟨k0, v0⟩ := hd
    by_cases h0 : k0 = k <;> simp [eraseEntry, lookupEntry, h0, ih]

theorem lookupEntry_eraseEntry_ne (m : EntryMap) (k k' : String) (h : k ≠ k') :
    lookupEntry (eraseEntry m k) k' = lookupEntry m k' := by
  induction m with
  | nil => simp [eraseEntry, lookupEntry]
  | cons hd tl ih =>
    obtain ⟨k0, v0⟩ := hd
    by_cases h0 : k0 = k
    · subst h0
      simp [eraseEntry, lookupEntry, h, ih]
    · by_cases h1 : k0 = k' <;> simp [eraseEntry, lookupEntry, h0, h1, ih, Ne.symm h]

theorem lookupEntry_setEntry_isSome (m : EntryMap) (k0 : String) (v0 : List String)
    (k : String) (h : (lookupEntry m k).isSome = true) :
    (lookupEntry (setEntry m k0 v0) k).isSome = true := by
  by_cases hk : k0 = k
  · subst hk
    simp [lookupEntry_setEntry_self]
  · rwa [lookupEntry_setEntry_ne m k0 v0 k hk]

theorem lookupEntry_mergeEntries_isSome (b : EntryMap) :
    ∀ (a : EntryMap) (k : String), (lookupEntry a k).isSome = true →
      (lookupEntry (mergeEntries a b) k).isSome = true := by
  induction b with
  | nil => intro a k h; simpa [mergeEntries] using h
  | cons hd tl ih =>
    obtain ⟨k0, v0⟩ := hd
    intro a k h
    exact ih (setEntry a k0 v0) k (lookupEntry_setEntry_isSome a k0 v0 k h)

/-- C1 (corrected): in the client production optimization result the commons
`minChunks` threshold equals 2 for `totalPageCount ≤ 2` and equals
`totalPageCount * 0.5` exactly — with no rounding — for `totalPageCount > 2`;
it coincides with `ceil(totalPageCount * 0.5)` only for even counts. -/
theorem commons_minChunks_formula (n : ℕ) :
    (n ≤ 2 → clientProdCommonsMinChunks n = some 2) ∧
    (2 < n → clientProdCommonsMinChunks n = some ((n : ℚ) * 0.5)) := by
  constructor
  · intro h
    have hn : ¬ n > 2 := by omega
    simp [clientProdCommonsMinChunks, optimizationConfig, hn]
  · intro h
    simp [clientProdCommonsMinChunks, optimizationConfig, h]

/-- C1 counterexample: for `totalPageCount = 5` the threshold stored in the
optimization result is `5/2 = 2.5`, not the `ceil(5 * 0.5) = 3` the claim
states. -/
theorem commons_minChunks_five_not_three :
    clientProdCommonsMinChunks 5 = some (5 / 2) ∧ ((5 : ℚ) / 2) ≠ 3 := by
  constructor
  · norm_num [clientProdCommonsMinChunks, optimizationConfig]
  · norm_num

/-- C1 witness: at `totalPageCount = 10` the amended formula yields exactly 5. -/
theorem commons_minChunks_ten :
    2 < 10 ∧ clientProdCommonsMinChunks 10 = some 5 := by
  refine ⟨by norm_num, ?_⟩
  have h := (commons_minChunks_formula 10).2 (by norm_num)
  rw [h]
  norm_num

/-- C6: if the user override hook is present and evaluates to a failure on
the assembled base configuration, `getBaseWebpackConfig` returns that same
failure unchanged and no configuration value. -/
theorem hook_failure_propagates (dev isServer : Bool) (pe : EntryMap)
    (f : Config → Except String Config) (e : String)
    (h : f (baseWebpackConfig dev isServer pe) = .error e) :
    getBaseWebpackConfig dev isServer pe (some f) = .error e := by
  simpa [getBaseWebpackConfig] using h

/-- C6 witness: a hook that raises `hook failed` makes the assembler raise
exactly `hook failed`. -/
theorem hook_failure_propagates_example :
    getBaseWebpackConfig false false [] (some fun _ => .error "hook failed")
      = .error "hook failed" :=
  hook_failure_propagates false false [] _ "hook failed" rfl

/-- C8: for every dev flag and every page count, the server optimization
result disables chunk splitting (`splitChunks: false`) and minification
(`minimize: false`). -/
theorem server_optimization_disables_splitting (dev : Bool) (n : ℕ) :
    (optimizationConfig dev true n).splitChunks = .disabled ∧
    (optimizationConfig dev true n).minimize = some false := by
  simp [optimizationConfig]

/-- C9: a request whose resolved path matches the framework's bundled
default-pages segment is always classified as bundled, never externalized
(the default-pages test precedes the `node_modules …*.js` externalization
test). -/
theorem default_pages_always_bundled (request res : String)
    (h : matchesDefaultPages res = true) :
    externalsCallback request (.ok res) = .ok .bundle := by
  simp [externalsCallback, h]

/-- C9 witness: a resolved path under the default-pages directory that also
lies under `node_modules` and ends in `.js` is still bundled. -/
theorem default_pages_always_bundled_example :
    matchesDefaultPages "/proj/node_modules/next/dist/pages/_error.js" = true ∧
    matchesNodeModulesJs "/proj/node_modules/next/dist/pages/_error.js" = true ∧
    externalsCallback "next/dist/pages/_error"
      (.ok "/proj/node_modules/next/dist/pages/_error.js") = .ok .bundle :=
  ⟨by decide, by decide, default_pages_always_bundled _ _ (by decide)⟩

/-- C10: a failed resolution makes the externals callback complete with the
plain bundle decision; the resolution error is dropped, never surfaced. -/
theorem resolution_failure_bundles (request err : String) :
    externalsCallback request (.error err) = .ok .bundle := rfl

/-- C2: when `main.js` is present (with modules `a`) and
`static/commons/main.js` is present (with modules `b`), the closing rewrite
succeeds, maps `static/commons/main.js` to `a ++ b` (main.js modules first,
relative order preserved), removes `main.js`, and leaves every other key
unchanged; when `main.js` is absent the mapping is returned unchanged; and
on the spec's concrete example the result is exactly
`[("static/commons/main.js", ["A", "B"])]`. -/
theorem entry_rewrite_promotes_main (m : EntryMap) (a b : List String) :
    (lookupEntry m "main.js" = some a →
      lookupEntry m "static/commons/main.js" = some b →
      entryRewrite m =
        .ok (eraseEntry (setEntry m "static/commons/main.js" (a ++ b)) "main.js") ∧
      lookupEntry
        (eraseEntry (setEntry m "static/commons/main.js" (a ++ b)) "main.js")
        "static/commons/main.js" = some (a ++ b) ∧
      lookupEntry
        (eraseEntry (setEntry m "static/commons/main.js" (a ++ b)) "main.js")
        "main.js" = none ∧
      (∀ k, k ≠ "main.js" → k ≠ "static/commons/main.js" →
        lookupEntry
          (eraseEntry (setEntry m "static/commons/main.js" (a ++ b)) "main.js") k
          = lookupEntry m k)) ∧
    (lookupEntry m "main.js" = none → entryRewrite m = .ok m) ∧
    entryRewrite [("main.js", ["A"]), ("static/commons/main.js", ["B"])]
      = .ok [("static/commons/main.js", ["A", "B"])] := by
  refine ⟨?_, ?_, rfl⟩
  · intro h1 h2
    refine ⟨by simp [entryRewrite, h1, h2], ?_, lookupEntry_eraseEntry_self _ _, ?_⟩
    · rw [lookupEntry_eraseEntry_ne _ _ _ (by decide), lookupEntry_setEntry_self]
    · intro k hk1 hk2
      rw [lookupEntry_eraseEntry_ne _ _ _ (Ne.symm hk1),
        lookupEntry_setEntry_ne _ _ _ _ (Ne.symm hk2)]
  · intro h
    simp [entryRewrite, h]

/-- C2 witness: the spec's example, with both hypotheses discharged on the
concrete mapping. -/
theorem entry_rewrite_promotes_main_example :
    lookupEntry [("main.js", ["A"]), ("static/commons/main.js", ["B"])]
      "main.js" = some ["A"] ∧
    lookupEntry [("main.js", ["A"]), ("static/commons/main.js", ["B"])]
      "static/commons/main.js" = some ["B"] ∧
    entryRewrite [("main.js", ["A"]), ("static/commons/main.js", ["B"])]
      = .ok [("static/commons/main.js", ["A", "B"])] := by
  refine ⟨rfl, rfl, ?_⟩
  exact ((entry_rewrite_promotes_main
    [("main.js", ["A"]), ("static/commons/main.js", ["B"])] ["A"] ["B"]).1 rfl rfl).1

/-- C3 counterexample: on the mapping with `main.js` but no
`static/commons/main.js` — producible by a user override hook — the closing
rewrite spreads `undefined` and raises a TypeError instead of returning a
mapping. -/
theorem entry_rewrite_orphan_main_fails :
    entryRewrite [("main.js", ["A"])]
      = .error "TypeError: undefined is not iterable" := rfl

/-- C3 (corrected): the closing rewrite succeeds on every mapping in which
`main.js` is absent, or `static/commons/main.js` is present; it can fail —
on `main.js` present without `static/commons/main.js` — so it is not total
over all user-produced mappings. -/
theorem entry_rewrite_totality (m : EntryMap)
    (h : lookupEntry m "main.js" = none ∨
      (lookupEntry m "static/commons/main.js").isSome = true) :
    exceptOk (entryRewrite m) = true := by
  rcases hmm : lookupEntry m "main.js" with _ | a
  · simp [entryRewrite, hmm, exceptOk]
  · rcases h with h | h
    · rw [hmm] at h
      exact absurd h (by simp)
    · obtain ⟨b, hb⟩ := Option.isSome_iff_exists.mp h
      simp [entryRewrite, hmm, hb, exceptOk]

/-- C3 witness: the rewrite succeeds on a mapping without `main.js`. -/
theorem entry_rewrite_totality_example :
    exceptOk (entryRewrite [("static/commons/main.js", ["B"])]) = true :=
  entry_rewrite_totality _ (Or.inl rfl)

/-- C5: the closing rewrite is idempotent, so the final entry thunk can be
re-invoked without accumulating state: whenever one evaluation returns `r`,
evaluating the rewrite again on `r` returns `r` unchanged (in particular
`main.js` is gone after the first pass and is not re-promoted); each
invocation recomputes from the immutable inputs of the model, mutating
nothing. -/
theorem entry_thunk_idempotent (m r : EntryMap) (h : entryRewrite m = .ok r) :
    entryRewrite r = .ok r ∧ lookupEntry r "main.js" = none := by
  rcases hmm : lookupEntry m "main.js" with _ | a
  · simp only [entryRewrite, hmm, Except.ok.injEq] at h
    subst h
    exact ⟨by simp [entryRewrite, hmm], hmm⟩
  · rcases hc : lookupEntry m "static/commons/main.js" with _ | b
    · simp [entryRewrite, hmm, hc] at h
    · simp only [entryRewrite, hmm, hc, Except.ok.injEq] at h
      subst h
      have hr : lookupEntry
          (eraseEntry (setEntry m "static/commons/main.js" (a ++ b)) "main.js")
          "main.js" = none := lookupEntry_eraseEntry_self _ _
      exact ⟨by simp [entryRewrite, hr], hr⟩

/-- C5 witness: one evaluation of the rewrite on the example mapping, then a
second evaluation on its result, which returns it unchanged. -/
theorem entry_thunk_idempotent_example :
    entryRewrite [("static/commons/main.js", ["A", "B"])]
      = .ok [("static/commons/main.js", ["A", "B"])] ∧
    lookupEntry [("static/commons/main.js", ["A", "B"])] "main.js" = none :=
  entry_thunk_idempotent
    [("main.js", ["A"]), ("static/commons/main.js", ["B"])] _ rfl

/-- C7: in production the two infrastructure chunk names get the content
hash inserted immediately before the `.js` extension; every other chunk
name, and every chunk in development, is emitted under its unchanged name
(the policy returns the bundler template `[name]`, which the bundler
expands to the chunk name). -/
theorem output_filename_policy (dev : Bool) (c : ChunkDescriptor) :
    (dev = false → c.name = "static/commons/main.js" →
      outputFilename dev c
        = "static/commons/main" ++ ("-" ++ c.renderedHash ++ ".js")) ∧
    (dev = false → c.name = "static/commons/runtime.js" →
      outputFilename dev c
        = "static/commons/runtime" ++ ("-" ++ c.renderedHash ++ ".js")) ∧
    ((dev = true ∨ (c.name ≠ "static/commons/main.js"
        ∧ c.name ≠ "static/commons/runtime.js")) →
      resolveFilenameTemplate c (outputFilename dev c) = c.name) := by
  obtain ⟨name, hash⟩ := c
  refine ⟨?_, ?_, ?_⟩
  · rintro rfl rfl
    rfl
  · rintro rfl rfl
    rfl
  · rintro (rfl | ⟨h1, h2⟩)
    · rfl
    · have hcond : ¬ (dev = false ∧ (name = "static/commons/main.js"
          ∨ name = "static/commons/runtime.js")) := by
        rintro ⟨-, h | h⟩
        · exact h1 h
        · exact h2 h
      simp [outputFilename, hcond, resolveFilenameTemplate]

/-- C7 witness: the runtime chunk in production gets its hash before the
extension; a page chunk in production and an infrastructure chunk in
development are emitted under their unchanged names. -/
theorem output_filename_policy_example :
    outputFilename false ⟨"static/commons/runtime.js", "abc123"⟩
      = "static/commons/runtime" ++ ("-" ++ "abc123" ++ ".js") ∧
    resolveFilenameTemplate ⟨"bundles/pages/index.js", "abc123"⟩
      (outputFilename false ⟨"bundles/pages/index.js", "abc123"⟩)
      = "bundles/pages/index.js" ∧
    resolveFilenameTemplate ⟨"static/commons/main.js", "abc123"⟩
      (outputFilename true ⟨"static/commons/main.js", "abc123"⟩)
      = "static/commons/main.js" :=
  ⟨(output_filename_policy false ⟨"static/commons/runtime.js", "abc123"⟩).2.1
      rfl rfl,
   (output_filename_policy false ⟨"bundles/pages/index.js", "abc123"⟩).2.2
      (Or.inr ⟨by decide, by decide⟩),
   (output_filename_policy true ⟨"static/commons/main.js", "abc123"⟩).2.2
      (Or.inl rfl)⟩

/-- C4 counterexample: a user override hook that replaces the entry thunk
with one returning the empty mapping yields a final client entry mapping
without the `static/commons/main.js` key. -/
theorem user_hook_can_drop_commons_key :
    (getBaseWebpackConfig false false []
        (some fun c => .ok { c with entry := [] })).map
      (fun c => (entryRewrite c.entry).map
        fun r => lookupEntry r "static/commons/main.js")
      = .ok (.ok none) := rfl

/-- C4 (corrected): for every client build assembled without a user override
hook, evaluating the final configuration's entry thunk succeeds and the
resulting mapping contains the `static/commons/main.js` key, whatever the
discovered page entries are; a hook that replaces the entry thunk can
remove the key. -/
theorem default_client_entry_has_commons (dev : Bool) (pe : EntryMap) :
    ∃ c r, getBaseWebpackConfig dev false pe none = .ok c ∧
      entryRewrite c.entry = .ok r ∧
      (lookupEntry r "static/commons/main.js").isSome = true := by
  have hm1 : (lookupEntry (mergeEntries (clientEntries dev false) pe)
      "main.js").isSome = true :=
    lookupEntry_mergeEntries_isSome pe (clientEntries dev false) "main.js" rfl
  have hm2 : (lookupEntry (mergeEntries (clientEntries dev false) pe)
      "static/commons/main.js").isSome = true :=
    lookupEntry_mergeEntries_isSome pe (clientEntries dev false)
      "static/commons/main.js" rfl
  obtain ⟨a, ha⟩ := Option.isSome_iff_exists.mp hm1
  obtain ⟨b, hb⟩ := Option.isSome_iff_exists.mp hm2
  refine ⟨baseWebpackConfig dev false pe,
    eraseEntry (setEntry (mergeEntries (clientEntries dev false) pe)
      "static/commons/main.js" (a ++ b)) "main.js",
    rfl, ?_, ?_⟩
  · show entryRewrite (mergeEntries (clientEntries dev false) pe) = _
    simp [entryRewrite, ha, hb]
  · rw [lookupEntry_eraseEntry_ne _ _ _ (by decide), lookupEntry_setEntry_self]
    rfl

end NextBuild
